import Mathlib

/-!
Verification of the Sanity CMS HTTP client (`SanityClient`) against its
natural-language specification.

The client is shallowly embedded: documents are ordered association lists of
JSON fields (mirroring JavaScript object key order), network effects are made
explicit as a list of issued calls paired with the operation's result, and the
remote store's behaviour is abstracted as a response oracle.  JavaScript
falsiness (`x || d`, `if (!this.token)`) is modelled by explicit truthiness
functions.
-/

set_option autoImplicit false

/-- JSON values, the payloads carried by documents, query parameters and
mutations.  Objects keep their fields as ordered lists, matching JavaScript
object insertion order. -/
inductive Json where
  | null : Json
  | bool (b : Bool) : Json
  | num (n : Int) : Json
  | str (s : String) : Json
  | arr (elems : List Json) : Json
  | obj (fields : List (String × Json)) : Json

/-- Escape one character the way `JSON.stringify` escapes string contents
(quotes and backslashes; enough for injectivity of serialization on the
values used here). -/
def escapeJsonChar (c : Char) : String :=
  if c = '"' then "\\\"" else if c = '\\' then "\\\\" else String.singleton c

/-- Escape the contents of a JSON string literal. -/
def escapeJsonString (s : String) : String :=
  String.join (s.data.map escapeJsonChar)

/-- Render a string as a JSON string literal. -/
def quoteJson (s : String) : String :=
  "\"" ++ escapeJsonString s ++ "\""

mutual

/-- Serialization of JSON values, modelling `JSON.stringify`. -/
def Json.serialize : Json → String
  | .null => "null"
  | .bool b => if b then "true" else "false"
  | .num n => toString n
  | .str s => quoteJson s
  | .arr elems => "[" ++ String.intercalate "," (serializeElems elems) ++ "]"
  | .obj fields =>
      "\x7b" ++ String.intercalate "," (serializeFields fields) ++ "\x7d"

/-- Serialize every element of a JSON array. -/
def serializeElems : List Json → List String
  | [] => []
  | j :: rest => Json.serialize j :: serializeElems rest

/-- Serialize every field of a JSON object as a quoted key/value pair. -/
def serializeFields : List (String × Json) → List String
  | [] => []
  | (k, v) :: rest => (quoteJson k ++ ":" ++ Json.serialize v) :: serializeFields rest

end

/-- JavaScript truthiness of a JSON value (`undefined` is handled separately
as `Option.none` at use sites). -/
def Json.truthy : Json → Bool
  | .null => false
  | .bool b => b
  | .num n => n != 0
  | .str s => s != ""
  | .arr _ => true
  | .obj _ => true

/-- A Sanity document: a JavaScript object, i.e. an ordered list of fields.
Reserved fields (`_id`, `_type`, `_rev`, timestamps) are ordinary keys. -/
abbrev SanityDocument := List (String × Json)

/-- Property access `doc[key]`: the first binding of `key`, `none` meaning
the JavaScript `undefined`.  (Real JavaScript objects have unique keys.) -/
def getField (doc : SanityDocument) (key : String) : Option Json :=
  (doc.find? (fun kv => kv.1 = key)).map (fun kv => kv.2)

/-- Truthiness of a possibly-absent value, as in `if (document._id)`. -/
def jsTruthy (v : Option Json) : Bool :=
  match v with
  | none => false
  | some j => j.truthy

/-- JavaScript `v || dflt` over a possibly-absent value. -/
def jsOr (v : Option Json) (dflt : Json) : Json :=
  match v with
  | none => dflt
  | some j => if j.truthy then j else dflt

/-- JavaScript `n || dflt` for numbers (0 is falsy). -/
def jsOrInt (v : Option Int) (dflt : Int) : Int :=
  match v with
  | none => dflt
  | some n => if n = 0 then dflt else n

/-- JavaScript `s || dflt` for strings (the empty string is falsy). -/
def jsOrStr (v : Option String) (dflt : String) : String :=
  match v with
  | none => dflt
  | some s => if s = "" then dflt else s

/-- Truthiness of an optional string, as in `if (!this.token)`. -/
def strTruthy (s : Option String) : Bool :=
  match s with
  | none => false
  | some t => t != ""

/-- JavaScript `s.startsWith(pre)`, computed on the character lists (the
core `String.startsWith` is not kernel-reducible). -/
def strStartsWith (s pre : String) : Bool :=
  pre.data.isPrefixOf s.data

/-- Drop the first `n` characters of a string, on the character list. -/
def strDrop (s : String) (n : Nat) : String :=
  String.mk (s.data.drop n)

/-- Set a key in an ordered association list: override the existing binding
in place, or append a fresh one.  This is both `URLSearchParams.set` and the
effect of one step of a JavaScript object spread. -/
def setEntry {α : Type} (entries : List (String × α)) (key : String) (v : α) :
    List (String × α) :=
  if entries.any (fun kv => kv.1 = key) then
    entries.map (fun kv => if kv.1 = key then (key, v) else kv)
  else entries ++ [(key, v)]

/-- JavaScript object literal `\x7b ...base, ...ext \x7d`: spread the fields of
`ext` over `base`, later keys overriding earlier ones in place. -/
def spreadInto (base ext : List (String × Json)) : List (String × Json) :=
  ext.foldl (fun acc kv => setEntry acc kv.1 kv.2) base

/-- Destructuring-rest `const \x7b _id, _rev, ...rest \x7d = doc`: drop the
listed keys, keeping the remaining fields in order. -/
def omitKeys (doc : SanityDocument) (keys : List String) : SanityDocument :=
  doc.filter (fun kv => ! keys.contains kv.1)

/-- Hexadecimal digit (uppercase) of a value below 16. -/
def toHexDigit (n : Nat) : Char :=
  if n < 10 then Char.ofNat (48 + n) else Char.ofNat (55 + n)

/-- Percent-encoding of one byte, e.g. `%2F`. -/
def percentByte (b : Nat) : String :=
  String.mk ['%', toHexDigit (b / 16 % 16), toHexDigit (b % 16)]

/-- UTF-8 encoding of one code point, as the byte values. -/
def utf8Bytes (c : Char) : List Nat :=
  let n := c.toNat
  if n < 128 then [n]
  else if n < 2048 then [192 + n / 64, 128 + n % 64]
  else if n < 65536 then [224 + n / 4096, 128 + n / 64 % 64, 128 + n % 64]
  else [240 + n / 262144, 128 + n / 4096 % 64, 128 + n / 64 % 64, 128 + n % 64]

/-- Characters `encodeURIComponent` leaves unescaped:
alphanumerics and `- _ . ! ~ * ' ( )`. -/
def uriUnreserved (c : Char) : Bool :=
  c.isAlphanum || c = '-' || c = '_' || c = '.' || c = '!' || c = '~' ||
    c = '*' || c = Char.ofNat 39 || c = '(' || c = ')'

/-- JavaScript `encodeURIComponent`: keep unreserved characters, percent-encode
the UTF-8 bytes of everything else. -/
def encodeURIComponent (s : String) : String :=
  String.join (s.data.map (fun c =>
    if uriUnreserved c then String.singleton c
    else String.join ((utf8Bytes c).map percentByte)))

/-- HTTP method of an issued request. -/
inductive HttpMethod where
  | get : HttpMethod
  | post : HttpMethod
  deriving DecidableEq

/-- An HTTP request as the client shapes it: method, endpoint URL (without the
query string), the decoded URL query-string entries, and an optional JSON
body. -/
structure Request where
  method : HttpMethod
  url : String
  searchParams : List (String × String)
  body : Option Json

/-- Ordered-insert instruction of a patch. -/
structure InsertSpec where
  before : Option String
  after : Option String
  replace : Option String
  items : List Json

/-- Patch payload: target id plus the partial-update instruction set; absent
instructions are omitted from the wire payload. -/
structure PatchSpec where
  id : String
  set : Option (List (String × Json))
  unset : Option (List String)
  inc : Option (List (String × Int))
  dec : Option (List (String × Int))
  insert : Option InsertSpec

/-- A single mutation: the tagged variants accepted by the mutation endpoint
(also the shape of `BulkOperation`). -/
inductive Mutation where
  | create (doc : SanityDocument)
  | createOrReplace (doc : SanityDocument)
  | createIfNotExists (doc : SanityDocument)
  | patch (spec : PatchSpec)
  | delete (id : String)

/-- The tag key of a mutation object, i.e. `Object.keys(op)[0]`. -/
def Mutation.kindKey : Mutation → String
  | .create _ => "create"
  | .createOrReplace _ => "createOrReplace"
  | .createIfNotExists _ => "createIfNotExists"
  | .patch _ => "patch"
  | .delete _ => "delete"

/-- One entry of a mutation result. -/
structure MutationResultEntry where
  id : String
  operation : String

/-- Result envelope of the mutation endpoint. -/
structure MutationResult where
  transactionId : String
  results : List MutationResultEntry

/-- An uploaded asset document returned by the assets endpoint. -/
structure AssetDocument where
  _id : String
  _type : String
  url : String
  originalFilename : Option String
  mimeType : Option String
  size : Option Int

/-- A history entry.  `_id` is a raw property read (`none` = `undefined`);
`_rev` and `_updatedAt` are produced through `||` fallbacks. -/
structure HistoryEntry where
  _id : Option Json
  _rev : Json
  _updatedAt : Json

/-- The errors the client throws, classified per the spec's taxonomy, each
carrying the thrown message or status/body. -/
inductive SanityError where
  | queryFailed (status : Nat) (body : String)
  | mutationFailed (status : Nat) (body : String)
  | authRequired (msg : String)
  | notFound (msg : String)
  | uploadFailed (status : Nat) (body : String)

/-- One network call issued by the client. -/
inductive NetCall where
  | queryReq (req : Request)
  | mutateReq (mutations : List Mutation) (returnDocuments : Bool)
  | uploadReq (url : String) (contentType : String) (body : List Nat)
  | historyReq (url : String)

/-- Whether a network call hits the mutation endpoint. -/
def NetCall.isMutate : NetCall → Bool
  | .mutateReq _ _ => true
  | _ => false

/-- The remote store's behaviour, abstracted as response functions: the answer
to the fixed id-lookup query, and the responses of the mutation, history and
asset endpoints (errors are non-success HTTP statuses with body text).
`now` is the clock reading used for `new Date().toISOString()`. -/
structure NetOracle where
  getDoc : String → Option SanityDocument
  mutateResp : List Mutation → Bool → Except (Nat × String) MutationResult
  historyResp : String → Except (Nat × String) (Option (List HistoryEntry))
  uploadResp : String → String → Except (Nat × String) AssetDocument
  now : String

/-- Constructor input of the client. -/
structure SanityConfig where
  projectId : String
  dataset : String
  apiVersion : Option String
  token : Option String
  useCdn : Option Bool

/-- The client: its immutable connection configuration. -/
structure SanityClient where
  projectId : String
  dataset : String
  apiVersion : String
  token : Option String
  useCdn : Bool

/-- The constructor: apply the API-version default and derive `useCdn` from
credential absence unless explicitly overridden (`config.useCdn ?? !config.token`). -/
def SanityClient.ofConfig (config : SanityConfig) : SanityClient :=
  { projectId := config.projectId
    dataset := config.dataset
    apiVersion := jsOrStr config.apiVersion "2024-01-20"
    token := config.token
    useCdn :=
      match config.useCdn with
      | some b => b
      | none => ! strTruthy config.token }

/-- Read base URL: accelerated subdomain when `useCdn`, else the direct one. -/
def SanityClient.baseUrl (c : SanityClient) : String :=
  "https://" ++ c.projectId ++ "." ++ (if c.useCdn then "apicdn" else "api") ++
    ".sanity.io/v" ++ c.apiVersion

/-- Mutation endpoint URL (always the direct host). -/
def SanityClient.mutateUrl (c : SanityClient) : String :=
  "https://" ++ c.projectId ++ ".api.sanity.io/v" ++ c.apiVersion ++
    "/data/mutate/" ++ c.dataset

/-- Image-asset endpoint URL (always the direct host). -/
def SanityClient.assetsUrl (c : SanityClient) : String :=
  "https://" ++ c.projectId ++ ".api.sanity.io/v" ++ c.apiVersion ++
    "/assets/images/" ++ c.dataset

/-- Request shaping of `query`: encode the query string; below the 10,000
threshold issue a GET whose query-string entries are the query itself plus
each parameter under a `$`-prefixed key with a JSON-encoded value; at or above
it, a POST with JSON body holding `query` and, when given, `params`. -/
def SanityClient.buildQueryRequest (c : SanityClient) (groqQuery : String)
    (params : Option (List (String × Json))) : Request :=
  let queryString := encodeURIComponent groqQuery
  let isShortQuery := queryString.length < 10000
  if isShortQuery then
    let sp := setEntry [] "query" groqQuery
    let sp :=
      match params with
      | some ps =>
          ps.foldl (fun acc kv => setEntry acc ("$" ++ kv.1) (Json.serialize kv.2)) sp
      | none => sp
    { method := .get, url := c.baseUrl ++ "/data/query/" ++ c.dataset,
      searchParams := sp, body := none }
  else
    { method := .post, url := c.baseUrl ++ "/data/query/" ++ c.dataset,
      searchParams := [],
      body := some (Json.obj (("query", Json.str groqQuery) ::
        match params with
        | some ps => [("params", Json.obj ps)]
        | none => [])) }

/-- Fetch a single document: query `*[_id == $id][0]` and read off the store's
answer; absence is a value, never an error. -/
def SanityClient.getDocument (c : SanityClient) (net : NetOracle) (id : String) :
    List NetCall × Option SanityDocument :=
  ([NetCall.queryReq (c.buildQueryRequest "*[_id == $id][0]" (some [("id", Json.str id)]))],
   net.getDoc id)

/-- The mutate primitive: fail locally without a (truthy) token, else POST the
mutation batch and interpret a non-success response as a `MutationError`. -/
def SanityClient.mutate (c : SanityClient) (net : NetOracle)
    (mutations : List Mutation) (returnDocuments : Bool) :
    List NetCall × Except SanityError MutationResult :=
  if ! strTruthy c.token then
    ([], .error (.authRequired "Write operations require a Sanity API token"))
  else
    match net.mutateResp mutations returnDocuments with
    | .ok r => ([NetCall.mutateReq mutations returnDocuments], .ok r)
    | .error (status, body) =>
        ([NetCall.mutateReq mutations returnDocuments],
         .error (.mutationFailed status body))

/-- Create: `createOrReplace` when the caller supplied a (truthy) `_id`,
else a bare `create`. -/
def SanityClient.createDocument (c : SanityClient) (net : NetOracle)
    (document : SanityDocument) : List NetCall × Except SanityError MutationResult :=
  let mutation :=
    if jsTruthy (getField document "_id") then Mutation.createOrReplace document
    else Mutation.create document
  c.mutate net [mutation] false

/-- Update (full replace): `createOrReplace` of `\x7b _id: id, ...document \x7d`. -/
def SanityClient.updateDocument (c : SanityClient) (net : NetOracle) (id : String)
    (document : SanityDocument) : List NetCall × Except SanityError MutationResult :=
  c.mutate net
    [Mutation.createOrReplace (spreadInto [("_id", Json.str id)] document)] false

/-- The caller-facing patch argument set (everything of `PatchSpec` except the id). -/
structure PatchArgs where
  set : Option (List (String × Json))
  unset : Option (List String)
  inc : Option (List (String × Int))
  dec : Option (List (String × Int))
  insert : Option InsertSpec

/-- Patch: a single `patch` mutation keyed on the id. -/
def SanityClient.patchDocument (c : SanityClient) (net : NetOracle) (id : String)
    (patches : PatchArgs) : List NetCall × Except SanityError MutationResult :=
  c.mutate net
    [Mutation.patch
      { id := id, set := patches.set, unset := patches.unset, inc := patches.inc,
        dec := patches.dec, insert := patches.insert }] false

/-- Delete: a single `delete` mutation. -/
def SanityClient.deleteDocument (c : SanityClient) (net : NetOracle) (id : String) :
    List NetCall × Except SanityError MutationResult :=
  c.mutate net [Mutation.delete id] false

/-- Upload an image: fail locally without a token, else POST the bytes to the
assets endpoint with the filename URL-encoded into the query string. -/
def SanityClient.uploadImage (c : SanityClient) (net : NetOracle)
    (imageBuffer : List Nat) (filename : String) (contentType : String) :
    List NetCall × Except SanityError AssetDocument :=
  if ! strTruthy c.token then
    ([], .error (.authRequired "Image upload requires a Sanity API token"))
  else
    let url := c.assetsUrl ++ "?filename=" ++ encodeURIComponent filename
    match net.uploadResp url contentType with
    | .ok asset => ([NetCall.uploadReq url contentType imageBuffer], .ok asset)
    | .error (status, body) =>
        ([NetCall.uploadReq url contentType imageBuffer],
         .error (.uploadFailed status body))

/-- Image reference literal built from an asset id. -/
def createImageReference (assetId : String) : Json :=
  Json.obj [("_type", Json.str "image"),
    ("asset", Json.obj [("_type", Json.str "reference"), ("_ref", Json.str assetId)])]

/-- Strip the reserved draft marker: `id.replace('drafts.', '')` guarded by
`id.startsWith('drafts.')` removes exactly the leading 7 characters. -/
def stripDraftsOnce (id : String) : String :=
  if strStartsWith id "drafts." then strDrop id 7 else id

/-- Publish: fetch the draft (NotFound when absent), strip `_id`/`_rev`, then
batch a `createOrReplace` at the bare id with a `delete` of the draft id. -/
def SanityClient.publishDocument (c : SanityClient) (net : NetOracle)
    (draftId : String) : List NetCall × Except SanityError MutationResult :=
  let fetch := c.getDocument net draftId
  match fetch.2 with
  | none => (fetch.1, .error (.notFound ("Draft document not found: " ++ draftId)))
  | some draft =>
    let publishedId := stripDraftsOnce draftId
    let documentData := omitKeys draft ["_id", "_rev"]
    let m := c.mutate net
      [Mutation.createOrReplace (spreadInto [("_id", Json.str publishedId)] documentData),
       Mutation.delete draftId] false
    (fetch.1 ++ m.1, m.2)

/-- Unpublish: symmetric to publish, moving the payload under the draft id. -/
def SanityClient.unpublishDocument (c : SanityClient) (net : NetOracle)
    (publishedId : String) : List NetCall × Except SanityError MutationResult :=
  let fetch := c.getDocument net publishedId
  match fetch.2 with
  | none =>
      (fetch.1, .error (.notFound ("Published document not found: " ++ publishedId)))
  | some published =>
    let draftId :=
      if strStartsWith publishedId "drafts." then publishedId
      else "drafts." ++ publishedId
    let documentData := omitKeys published ["_id", "_rev"]
    let m := c.mutate net
      [Mutation.createOrReplace (spreadInto [("_id", Json.str draftId)] documentData),
       Mutation.delete publishedId] false
    (fetch.1 ++ m.1, m.2)

/-- Options of the list-by-type operation. -/
structure ListOptions where
  limit : Option Int
  offset : Option Int
  order : Option String

/-- The query string built by `getDocumentsByType`: defaults limit 100,
offset 0, order `_createdAt desc` applied through JavaScript `||`, then the
template `*[_type == $type] | order(<order>) [<offset>...<offset+limit>]`
(the source places a space between the order clause and the range selector). -/
def getDocumentsByTypeQuery (options : Option ListOptions) : String :=
  let limit := jsOrInt (options.bind (fun o => o.limit)) 100
  let offset := jsOrInt (options.bind (fun o => o.offset)) 0
  let order := jsOrStr (options.bind (fun o => o.order)) "_createdAt desc"
  "*[_type == $type] | order(" ++ order ++ ") [" ++ toString offset ++ "..." ++
    toString (offset + limit) ++ "]"

/-- The full request issued by `getDocumentsByType`: the built query with the
type passed as the `$type` parameter. -/
def SanityClient.getDocumentsByTypeRequest (c : SanityClient) (type : String)
    (options : Option ListOptions) : Request :=
  c.buildQueryRequest (getDocumentsByTypeQuery options) (some [("type", Json.str type)])

/-- Options of the history operation. -/
structure HistoryOptions where
  limit : Option Int

/-- History endpoint URL for a document and limit. -/
def SanityClient.historyUrl (c : SanityClient) (documentId : String) (limit : Int) :
    String :=
  "https://" ++ c.projectId ++ ".api.sanity.io/v" ++ c.apiVersion ++
    "/data/history/" ++ c.dataset ++ "/documents/" ++ documentId ++
    "?limit=" ++ toString limit

/-- Revision history: requires a token; on a non-success history response fall
back to a single entry synthesized from the current document (or an empty list
when the document is absent) instead of surfacing the failure. -/
def SanityClient.getHistory (c : SanityClient) (net : NetOracle)
    (documentId : String) (options : Option HistoryOptions) :
    List NetCall × Except SanityError (List HistoryEntry) :=
  if ! strTruthy c.token then
    ([], .error (.authRequired "History access requires a Sanity API token"))
  else
    let limit := jsOrInt (options.bind (fun o => o.limit)) 25
    let url := c.historyUrl documentId limit
    match net.historyResp url with
    | .error _ =>
      let fetch := c.getDocument net documentId
      match fetch.2 with
      | some doc =>
          (NetCall.historyReq url :: fetch.1,
           .ok [{ _id := getField doc "_id",
                  _rev := jsOr (getField doc "_rev") (Json.str "unknown"),
                  _updatedAt := jsOr (getField doc "_updatedAt") (Json.str net.now) }])
      | none => (NetCall.historyReq url :: fetch.1, .ok [])
    | .ok documents =>
        ([NetCall.historyReq url],
         .ok (match documents with
              | some ds => ds
              | none => []))

/-- Field-difference result of `compareDocuments`. -/
structure DiffResult where
  added : List String
  removed : List String
  changed : List String
  unchanged : List String

/-- Application field names of a document: its keys without the reserved
(underscore-prefixed) ones, in insertion order. -/
def appKeys (doc : SanityDocument) : List String :=
  (doc.map (fun kv => kv.1)).filter (fun k => ! strStartsWith k "_")

/-- Render `JSON.stringify(doc[key])` for a key known to be present
("undefined" stands for the unreachable absent case). -/
def stringifyAt (doc : SanityDocument) (key : String) : String :=
  match getField doc key with
  | some v => Json.serialize v
  | none => "undefined"

/-- Diff two documents: fetch both, fail with NotFound naming the missing id,
else classify each application field as added / removed / changed / unchanged
(changed compares the JSON serializations of the two values). -/
def SanityClient.compareDocuments (c : SanityClient) (net : NetOracle)
    (idA idB : String) : List NetCall × Except SanityError DiffResult :=
  let fa := c.getDocument net idA
  let fb := c.getDocument net idB
  let calls := fa.1 ++ fb.1
  match fa.2 with
  | none => (calls, .error (.notFound ("Document not found: " ++ idA)))
  | some docA =>
    match fb.2 with
    | none => (calls, .error (.notFound ("Document not found: " ++ idB)))
    | some docB =>
      let keysA := appKeys docA
      let keysB := appKeys docB
      let added := keysB.filter (fun k => ! keysA.contains k)
      let removed := keysA.filter (fun k => ! keysB.contains k)
      let changed := keysA.filter (fun k =>
        keysB.contains k && stringifyAt docA k != stringifyAt docB k)
      let unchanged := keysA.filter (fun k =>
        keysB.contains k && stringifyAt docA k == stringifyAt docB k)
      (calls, .ok { added := added, removed := removed, changed := changed,
                    unchanged := unchanged })

/-- Options of the bulk operation. -/
structure BulkOptions where
  dryRun : Option Bool

/-- Bulk transaction: requires a token; in dry-run mode synthesize a result
(transaction id `"dry-run"`, one entry per operation tagged with its kind)
without any network call, else submit the batch through `mutate`. -/
def SanityClient.bulkMutate (c : SanityClient) (net : NetOracle)
    (operations : List Mutation) (options : Option BulkOptions) :
    List NetCall × Except SanityError MutationResult :=
  if ! strTruthy c.token then
    ([], .error (.authRequired "Bulk operations require a Sanity API token"))
  else if (match options with
           | some o => o.dryRun == some true
           | none => false) then
    ([], .ok { transactionId := "dry-run",
               results := operations.enum.map (fun p =>
                 { id := "operation-" ++ toString p.1, operation := p.2.kindKey }) })
  else
    c.mutate net operations false

/-- The four draft/publish states. -/
inductive DocStatus where
  | published
  | draft
  | both
  | none
  deriving DecidableEq

/-- Result of the draft-status operation. -/
structure DraftStatus where
  published : Option SanityDocument
  draft : Option SanityDocument
  hasUnpublishedChanges : Bool
  status : DocStatus

/-- Draft status: normalize to the published id, fetch base and draft ids, and
classify; `hasUnpublishedChanges` is the draft lookup's success. -/
def SanityClient.getDraftStatus (c : SanityClient) (net : NetOracle)
    (documentId : String) : List NetCall × DraftStatus :=
  let publishedId := stripDraftsOnce documentId
  let draftId := "drafts." ++ publishedId
  let fp := c.getDocument net publishedId
  let fd := c.getDocument net draftId
  let status :=
    match fp.2, fd.2 with
    | some _, some _ => DocStatus.both
    | some _, none => DocStatus.published
    | none, some _ => DocStatus.draft
    | none, none => DocStatus.none
  (fp.1 ++ fd.1,
   { published := fp.2, draft := fd.2, hasUnpublishedChanges := fd.2.isSome,
     status := status })

/-- Unwrap a successful result, with a default for the error case (used to
state theorems about the success payload without an existential). -/
def okOr {α : Type} (dflt : α) : Except SanityError α → α
  | .ok a => a
  | .error _ => dflt

/-- Default empty diff used by `okOr` in statements. -/
def emptyDiff : DiffResult :=
  { added := [], removed := [], changed := [], unchanged := [] }

/-- Default empty mutation result used by `okOr` in statements. -/
def emptyMutationResult : MutationResult :=
  { transactionId := "", results := [] }

/-- Setting a fresh key appends it. -/
theorem setEntry_fresh {α : Type} (entries : List (String × α)) (key : String) (v : α)
    (h : ∀ q ∈ entries, q.1 ≠ key) : setEntry entries key v = entries ++ [(key, v)] := by
  unfold setEntry
  rw [if_neg]
  simp only [List.any_eq_true, not_exists]
  intro q hq
  exact h q hq.1 (of_decide_eq_true hq.2)

/-- Folding `setEntry` over pairwise-fresh, duplicate-free entries appends
them all in order. -/
theorem foldl_setEntry_fresh {α : Type} (ext : List (String × α)) :
    ∀ acc : List (String × α),
      (∀ p ∈ ext, ∀ q ∈ acc, q.1 ≠ p.1) → (ext.map Prod.fst).Nodup →
      ext.foldl (fun acc kv => setEntry acc kv.1 kv.2) acc = acc ++ ext := by
  induction ext with
  | nil => intro acc _ _; simp
  | cons kv rest ih =>
    intro acc hfresh hnd
    simp only [List.foldl_cons]
    rw [setEntry_fresh acc kv.1 kv.2
      (fun q hq => hfresh kv (List.mem_cons_self kv rest) q hq)]
    rw [List.map_cons, List.nodup_cons] at hnd
    rw [ih (acc ++ [(kv.1, kv.2)]) ?_ hnd.2]
    · simp
    · intro p hp q hq
      rcases List.mem_append.1 hq with h1 | h2
      · exact hfresh p (List.mem_cons_of_mem kv hp) q h1
      · have hq1 : q.1 = kv.1 := by
          simp only [List.mem_singleton] at h2
          rw [h2]
        rw [hq1]
        intro hcontra
        apply hnd.1
        rw [hcontra]
        exact List.mem_map_of_mem Prod.fst hp

/-- Spreading duplicate-free fields over fresh base keys appends them. -/
theorem spreadInto_fresh (base ext : List (String × Json))
    (hf : ∀ p ∈ ext, ∀ q ∈ base, q.1 ≠ p.1) (hnd : (ext.map Prod.fst).Nodup) :
    spreadInto base ext = base ++ ext :=
  foldl_setEntry_fresh ext base hf hnd

/-- The keys surviving `omitKeys` are a sublist of the original keys. -/
theorem omitKeys_keys_sublist (doc : SanityDocument) (keys : List String) :
    List.Sublist ((omitKeys doc keys).map Prod.fst) (doc.map Prod.fst) :=
  (List.filter_sublist doc).map Prod.fst

/-- `omitKeys` preserves key distinctness. -/
theorem omitKeys_nodup (doc : SanityDocument) (keys : List String)
    (h : (doc.map Prod.fst).Nodup) : ((omitKeys doc keys).map Prod.fst).Nodup :=
  h.sublist (omitKeys_keys_sublist doc keys)

/-- A dropped key does not survive `omitKeys`. -/
theorem not_mem_omitKeys (doc : SanityDocument) (keys : List String) (k : String)
    (hk : k ∈ keys) : k ∉ (omitKeys doc keys).map Prod.fst := by
  intro hmem
  simp only [List.mem_map] at hmem
  obtain ⟨kv, hkv, hfst⟩ := hmem
  rw [omitKeys, List.mem_filter] at hkv
  have h2 := hkv.2
  rw [Bool.not_eq_true'] at h2
  have hmem2 : kv.1 ∈ keys := by rw [hfst]; exact hk
  have : keys.contains kv.1 = true := by
    simpa using hmem2
  rw [h2] at this
  exact Bool.false_ne_true this

/-- Spreading an `_id`-free, duplicate-free payload over a fresh `_id` binding
just prepends the binding. -/
theorem spreadInto_id_cons (v : Json) (dd : List (String × Json))
    (hid : "_id" ∉ dd.map Prod.fst) (hnd : (dd.map Prod.fst).Nodup) :
    spreadInto [("_id", v)] dd = ("_id", v) :: dd := by
  rw [spreadInto_fresh]
  · rfl
  · intro p hp q hq
    simp only [List.mem_singleton] at hq
    rw [hq]
    intro hcontra
    have hc2 : "_id" = p.1 := hcontra
    apply hid
    rw [hc2]
    exact List.mem_map_of_mem Prod.fst hp
  · exact hnd

/-- With a truthy token, `mutate` issues exactly one batch call carrying the
given mutations. -/
theorem mutate_calls (c : SanityClient) (net : NetOracle) (ms : List Mutation)
    (rd : Bool) (htok : strTruthy c.token = true) :
    (c.mutate net ms rd).1 = [NetCall.mutateReq ms rd] := by
  unfold SanityClient.mutate
  rw [htok]
  simp only [Bool.not_true, Bool.false_eq_true, if_false]
  cases h : net.mutateResp ms rd with
  | ok r => rfl
  | error e =>
    obtain ⟨s, b⟩ := e
    rfl

/-- C1: for every draft id whose lookup returns a document (on a client with a
credential), `publishDocument` issues exactly the lookup query followed by one
mutation batch of exactly two mutations — a `createOrReplace` whose payload is
the fetched document with `_id` and `_rev` removed and `_id` set to the bare
id (the draft marker stripped), then a `delete` of the draft id; when the
lookup returns absent it fails with `NotFoundError` and submits no mutations. -/
theorem publishDocument_two_mutation_batch (c : SanityClient) (net : NetOracle)
    (draftId : String) :
    (∀ doc, net.getDoc draftId = some doc → strTruthy c.token = true →
      (doc.map Prod.fst).Nodup →
      (c.publishDocument net draftId).1 =
        [NetCall.queryReq (c.buildQueryRequest "*[_id == $id][0]"
            (some [("id", Json.str draftId)])),
         NetCall.mutateReq
           [Mutation.createOrReplace
              (("_id", Json.str (stripDraftsOnce draftId)) ::
                omitKeys doc ["_id", "_rev"]),
            Mutation.delete draftId] false]) ∧
    (net.getDoc draftId = none →
      c.publishDocument net draftId =
        ([NetCall.queryReq (c.buildQueryRequest "*[_id == $id][0]"
            (some [("id", Json.str draftId)]))],
         .error (.notFound ("Draft document not found: " ++ draftId)))) := by
  constructor
  · intro doc hdoc htok hnd
    unfold SanityClient.publishDocument SanityClient.getDocument
    simp only [hdoc]
    rw [mutate_calls c net _ false htok]
    rw [spreadInto_id_cons _ _ (not_mem_omitKeys doc _ "_id" (by simp))
      (omitKeys_nodup doc _ hnd)]
    rfl
  · intro hnone
    unfold SanityClient.publishDocument SanityClient.getDocument
    simp only [hnone]

/-- Concrete client holding a credential, used by witnesses. -/
def witTokClient : SanityClient :=
  { projectId := "p", dataset := "d", apiVersion := "2024-01-20",
    token := some "tkn", useCdn := false }

/-- Concrete client without a credential, used by witnesses. -/
def witNoTokClient : SanityClient :=
  { projectId := "p", dataset := "d", apiVersion := "2024-01-20",
    token := none, useCdn := true }

/-- Concrete draft document used by witnesses. -/
def witDraftDoc : SanityDocument :=
  [("_id", Json.str "drafts.x"), ("_type", Json.str "post"),
   ("_rev", Json.str "r1"), ("title", Json.str "T")]

/-- Concrete store behaviour used by witnesses: one draft document, successful
mutations, an unavailable history endpoint. -/
def witNet : NetOracle :=
  { getDoc := fun id => if id = "drafts.x" then some witDraftDoc else none
    mutateResp := fun _ _ => .ok { transactionId := "tx", results := [] }
    historyResp := fun _ => .error (503, "unavailable")
    uploadResp := fun _ _ => .error (500, "err")
    now := "2026-10-11T00:00:00.000Z" }

/-- Witness for C1: publishing the concrete draft issues the lookup plus the
two-mutation batch. -/
theorem publishDocument_two_mutation_batch_witness :
    (witTokClient.publishDocument witNet "drafts.x").1 =
      [NetCall.queryReq (witTokClient.buildQueryRequest "*[_id == $id][0]"
          (some [("id", Json.str "drafts.x")])),
       NetCall.mutateReq
         [Mutation.createOrReplace
            (("_id", Json.str (stripDraftsOnce "drafts.x")) ::
              omitKeys witDraftDoc ["_id", "_rev"]),
          Mutation.delete "drafts.x"] false] :=
  (publishDocument_two_mutation_batch witTokClient witNet "drafts.x").1 witDraftDoc
    rfl rfl (by decide)

/-- C2: each of the seven write operations on a client constructed without a
credential fails with `AuthRequiredError` and issues zero network calls, for
every input. -/
theorem write_ops_without_token_fail (c : SanityClient) (net : NetOracle)
    (h : c.token = none) (document : SanityDocument) (id : String)
    (patches : PatchArgs) (imageBuffer : List Nat) (filename contentType : String)
    (documentId : String) (hoptions : Option HistoryOptions)
    (operations : List Mutation) (boptions : Option BulkOptions) :
    c.createDocument net document =
      ([], .error (.authRequired "Write operations require a Sanity API token")) ∧
    c.updateDocument net id document =
      ([], .error (.authRequired "Write operations require a Sanity API token")) ∧
    c.patchDocument net id patches =
      ([], .error (.authRequired "Write operations require a Sanity API token")) ∧
    c.deleteDocument net id =
      ([], .error (.authRequired "Write operations require a Sanity API token")) ∧
    c.uploadImage net imageBuffer filename contentType =
      ([], .error (.authRequired "Image upload requires a Sanity API token")) ∧
    c.getHistory net documentId hoptions =
      ([], .error (.authRequired "History access requires a Sanity API token")) ∧
    c.bulkMutate net operations boptions =
      ([], .error (.authRequired "Bulk operations require a Sanity API token")) := by
  have htok : strTruthy c.token = false := by rw [h]; rfl
  refine ⟨?_, ?_, ?_, ?_, ?_, ?_, ?_⟩ <;>
    simp [SanityClient.createDocument, SanityClient.updateDocument,
      SanityClient.patchDocument, SanityClient.deleteDocument,
      SanityClient.uploadImage, SanityClient.getHistory, SanityClient.bulkMutate,
      SanityClient.mutate, htok]

/-- Witness for C2 at concrete inputs on the credential-less client. -/
theorem write_ops_without_token_fail_witness :
    witNoTokClient.createDocument witNet [("_type", Json.str "post")] =
      ([], .error (.authRequired "Write operations require a Sanity API token")) ∧
    witNoTokClient.updateDocument witNet "x" [("title", Json.str "T")] =
      ([], .error (.authRequired "Write operations require a Sanity API token")) ∧
    witNoTokClient.patchDocument witNet "x" ⟨none, none, none, none, none⟩ =
      ([], .error (.authRequired "Write operations require a Sanity API token")) ∧
    witNoTokClient.deleteDocument witNet "x" =
      ([], .error (.authRequired "Write operations require a Sanity API token")) ∧
    witNoTokClient.uploadImage witNet [0, 1] "f.png" "image/png" =
      ([], .error (.authRequired "Image upload requires a Sanity API token")) ∧
    witNoTokClient.getHistory witNet "x" none =
      ([], .error (.authRequired "History access requires a Sanity API token")) ∧
    witNoTokClient.bulkMutate witNet [Mutation.delete "x"] none =
      ([], .error (.authRequired "Bulk operations require a Sanity API token")) :=
  write_ops_without_token_fail witNoTokClient witNet rfl
    [("_type", Json.str "post")] "x" ⟨none, none, none, none, none⟩ [0, 1]
    "f.png" "image/png" "x" none [Mutation.delete "x"] none

/-- C9: dry-run does not bypass the credential check — `bulkMutate` with
`dryRun: true` on a credential-less client fails with the auth error instead
of returning the synthesized dry-run result. -/
theorem bulkMutate_dryRun_requires_token (c : SanityClient) (net : NetOracle)
    (operations : List Mutation) (h : c.token = none) :
    c.bulkMutate net operations (some { dryRun := some true }) =
      ([], .error (.authRequired "Bulk operations require a Sanity API token")) := by
  have htok : strTruthy c.token = false := by rw [h]; rfl
  simp [SanityClient.bulkMutate, htok]

/-- Witness for C9 at a concrete operation list. -/
theorem bulkMutate_dryRun_requires_token_witness :
    witNoTokClient.bulkMutate witNet [Mutation.delete "a"]
        (some { dryRun := some true }) =
      ([], .error (.authRequired "Bulk operations require a Sanity API token")) :=
  bulkMutate_dryRun_requires_token witNoTokClient witNet [Mutation.delete "a"] rfl

/-- A `$`-prefixed parameter key never collides with the `query` entry. -/
theorem dollar_ne_query (k : String) : "$" ++ k ≠ "query" := by
  intro h
  have h2 : ("$" ++ k).data = "query".data := congrArg String.data h
  rw [String.data_append] at h2
  have h3 : '$' = 'q' := by
    have ha : "$".data = ['$'] := rfl
    rw [ha] at h2
    have hb : "query".data = ['q', 'u', 'e', 'r', 'y'] := rfl
    rw [hb] at h2
    exact (List.cons.injEq _ _ _ _ ▸ h2).1
  exact absurd h3 (by decide)

/-- Prefixing with `$` is injective, so distinct parameter names stay
distinct keys. -/
theorem dollar_append_inj : Function.Injective (fun k : String => "$" ++ k) := by
  intro a b h
  have h2 : ("$" ++ a).data = ("$" ++ b).data := congrArg String.data h
  rw [String.data_append, String.data_append] at h2
  have h3 : a.data = b.data := by
    have ha : "$".data = ['$'] := rfl
    rw [ha] at h2
    simpa using h2
  exact String.ext h3

/-- Folding the parameter-insertion step of the GET branch over duplicate-free
parameter names appends one `$`-prefixed, JSON-encoded entry per parameter. -/
theorem foldl_setParams (ps : List (String × Json)) :
    ∀ acc : List (String × String),
      (∀ p ∈ ps, ∀ q ∈ acc, q.1 ≠ "$" ++ p.1) → (ps.map Prod.fst).Nodup →
      ps.foldl (fun acc kv => setEntry acc ("$" ++ kv.1) (Json.serialize kv.2)) acc =
        acc ++ ps.map (fun kv => ("$" ++ kv.1, Json.serialize kv.2)) := by
  induction ps with
  | nil => intro acc _ _; simp
  | cons kv rest ih =>
    intro acc hfresh hnd
    simp only [List.foldl_cons]
    rw [setEntry_fresh acc _ _ (fun q hq => hfresh kv (List.mem_cons_self kv rest) q hq)]
    rw [List.map_cons, List.nodup_cons] at hnd
    rw [ih (acc ++ [("$" ++ kv.1, Json.serialize kv.2)]) ?_ hnd.2]
    · simp
    · intro p hp q hq
      rcases List.mem_append.1 hq with h1 | h2
      · exact hfresh p (List.mem_cons_of_mem kv hp) q h1
      · have hq1 : q.1 = "$" ++ kv.1 := by
          simp only [List.mem_singleton] at h2
          rw [h2]
        rw [hq1]
        intro hcontra
        have hkp : kv.1 = p.1 := dollar_append_inj hcontra
        apply hnd.1
        rw [hkp]
        exact List.mem_map_of_mem Prod.fst hp

/-- C3: the query operation URL-encodes the query and compares its length to
the fixed 10,000 threshold — strictly below, a GET whose query-string entries
are the query plus one `$`-prefixed, JSON-encoded entry per parameter; at or
above, a POST whose JSON body carries the query and, when given, the
parameters. -/
theorem query_dispatch_by_encoded_length (c : SanityClient) (groqQuery : String)
    (ps : List (String × Json)) (hnd : (ps.map Prod.fst).Nodup) :
    ((encodeURIComponent groqQuery).length < 10000 →
      c.buildQueryRequest groqQuery (some ps) =
        { method := .get, url := c.baseUrl ++ "/data/query/" ++ c.dataset,
          searchParams := ("query", groqQuery) ::
            ps.map (fun kv => ("$" ++ kv.1, Json.serialize kv.2)),
          body := none } ∧
      c.buildQueryRequest groqQuery none =
        { method := .get, url := c.baseUrl ++ "/data/query/" ++ c.dataset,
          searchParams := [("query", groqQuery)], body := none }) ∧
    (10000 ≤ (encodeURIComponent groqQuery).length →
      c.buildQueryRequest groqQuery (some ps) =
        { method := .post, url := c.baseUrl ++ "/data/query/" ++ c.dataset,
          searchParams := [],
          body := some (Json.obj
            [("query", Json.str groqQuery), ("params", Json.obj ps)]) } ∧
      c.buildQueryRequest groqQuery none =
        { method := .post, url := c.baseUrl ++ "/data/query/" ++ c.dataset,
          searchParams := [],
          body := some (Json.obj [("query", Json.str groqQuery)]) }) := by
  have hq0 : setEntry ([] : List (String × String)) "query" groqQuery =
      [("query", groqQuery)] := by
    rw [setEntry_fresh]
    · rfl
    · intro q hq
      cases hq
  constructor
  · intro hlt
    constructor
    · unfold SanityClient.buildQueryRequest
      rw [if_pos hlt]
      rw [hq0]
      dsimp only
      rw [foldl_setParams ps [("query", groqQuery)] ?_ hnd]
      · rfl
      · intro p _ q hq
        simp only [List.mem_singleton] at hq
        rw [hq]
        exact (dollar_ne_query p.1).symm
    · unfold SanityClient.buildQueryRequest
      rw [if_pos hlt]
      rw [hq0]
  · intro hge
    have hnlt : ¬ (encodeURIComponent groqQuery).length < 10000 := not_lt.2 hge
    constructor
    · unfold SanityClient.buildQueryRequest
      rw [if_neg hnlt]
    · unfold SanityClient.buildQueryRequest
      rw [if_neg hnlt]

/-- Witness for C3: a one-character query with one parameter dispatches as the
claimed GET shape. -/
theorem query_dispatch_by_encoded_length_witness :
    witTokClient.buildQueryRequest "*" (some [("a", Json.num 1)]) =
      { method := .get,
        url := witTokClient.baseUrl ++ "/data/query/" ++ witTokClient.dataset,
        searchParams := ("query", "*") ::
          [("a", Json.num 1)].map (fun kv => ("$" ++ kv.1, Json.serialize kv.2)),
        body := none } ∧
    witTokClient.buildQueryRequest "*" none =
      { method := .get,
        url := witTokClient.baseUrl ++ "/data/query/" ++ witTokClient.dataset,
        searchParams := [("query", "*")], body := none } :=
  (query_dispatch_by_encoded_length witTokClient "*" [("a", Json.num 1)]
    (by decide)).1 (by decide)

/-- C4: with a credential, `bulkMutate` in dry-run mode issues zero network
calls and returns transaction id `"dry-run"` with exactly one result entry
per input operation, in order, each entry's operation field equal to that
operation's own tag key. -/
theorem bulkMutate_dryRun_synthesized (c : SanityClient) (net : NetOracle)
    (operations : List Mutation) (htok : strTruthy c.token = true) :
    (c.bulkMutate net operations (some { dryRun := some true })).1 = [] ∧
    (c.bulkMutate net operations (some { dryRun := some true })).2 =
      .ok (okOr emptyMutationResult
        (c.bulkMutate net operations (some { dryRun := some true })).2) ∧
    (okOr emptyMutationResult
      (c.bulkMutate net operations (some { dryRun := some true })).2).transactionId =
      "dry-run" ∧
    (okOr emptyMutationResult
      (c.bulkMutate net operations (some { dryRun := some true })).2).results.map
        (fun e => e.operation) =
      operations.map Mutation.kindKey ∧
    (okOr emptyMutationResult
      (c.bulkMutate net operations (some { dryRun := some true })).2).results.length =
      operations.length := by
  have hres : c.bulkMutate net operations (some { dryRun := some true }) =
      ([], .ok { transactionId := "dry-run",
                 results := operations.enum.map (fun p =>
                   { id := "operation-" ++ toString p.1,
                     operation := p.2.kindKey }) }) := by
    simp [SanityClient.bulkMutate, htok]
  rw [hres]
  refine ⟨rfl, rfl, rfl, ?_, ?_⟩
  · show (operations.enum.map (fun p =>
        ({ id := "operation-" ++ toString p.1,
           operation := p.2.kindKey } : MutationResultEntry))).map (fun e => e.operation) =
      operations.map Mutation.kindKey
    rw [List.map_map]
    have hcomp : ((fun e : MutationResultEntry => e.operation) ∘
        (fun p : Nat × Mutation =>
          ({ id := "operation-" ++ toString p.1,
             operation := p.2.kindKey } : MutationResultEntry))) =
        (Mutation.kindKey ∘ Prod.snd) := rfl
    rw [hcomp, ← List.map_map, List.enum_map_snd]
  · show (operations.enum.map (fun p =>
        ({ id := "operation-" ++ toString p.1,
           operation := p.2.kindKey } : MutationResultEntry))).length = operations.length
    rw [List.length_map, List.enum_length]

/-- Witness for C4 at a concrete two-operation batch. -/
theorem bulkMutate_dryRun_synthesized_witness :
    (witTokClient.bulkMutate witNet [Mutation.delete "a", Mutation.create [("_type", Json.str "post")]]
        (some { dryRun := some true })).1 = [] ∧
    (okOr emptyMutationResult
      (witTokClient.bulkMutate witNet [Mutation.delete "a", Mutation.create [("_type", Json.str "post")]]
        (some { dryRun := some true })).2).transactionId = "dry-run" ∧
    (okOr emptyMutationResult
      (witTokClient.bulkMutate witNet [Mutation.delete "a", Mutation.create [("_type", Json.str "post")]]
        (some { dryRun := some true })).2).results.map (fun e => e.operation) =
      ["delete", "create"] :=
  have h := bulkMutate_dryRun_synthesized witTokClient witNet
    [Mutation.delete "a", Mutation.create [("_type", Json.str "post")]] rfl
  ⟨h.1, h.2.2.1, h.2.2.2.1⟩

/-- C5: `getDraftStatus` normalizes the id to its published form, fetches the
published and drafts-prefixed ids, classifies existence into the four states,
and reports `hasUnpublishedChanges` exactly when the draft lookup succeeded. -/
theorem getDraftStatus_classifies (c : SanityClient) (net : NetOracle)
    (documentId : String) :
    (c.getDraftStatus net documentId).1 =
      [NetCall.queryReq (c.buildQueryRequest "*[_id == $id][0]"
         (some [("id", Json.str (stripDraftsOnce documentId))])),
       NetCall.queryReq (c.buildQueryRequest "*[_id == $id][0]"
         (some [("id", Json.str ("drafts." ++ stripDraftsOnce documentId))]))] ∧
    (c.getDraftStatus net documentId).2.published =
      net.getDoc (stripDraftsOnce documentId) ∧
    (c.getDraftStatus net documentId).2.draft =
      net.getDoc ("drafts." ++ stripDraftsOnce documentId) ∧
    ((c.getDraftStatus net documentId).2.status = DocStatus.both ↔
      (net.getDoc (stripDraftsOnce documentId)).isSome ∧
      (net.getDoc ("drafts." ++ stripDraftsOnce documentId)).isSome) ∧
    ((c.getDraftStatus net documentId).2.status = DocStatus.published ↔
      (net.getDoc (stripDraftsOnce documentId)).isSome ∧
      net.getDoc ("drafts." ++ stripDraftsOnce documentId) = none) ∧
    ((c.getDraftStatus net documentId).2.status = DocStatus.draft ↔
      net.getDoc (stripDraftsOnce documentId) = none ∧
      (net.getDoc ("drafts." ++ stripDraftsOnce documentId)).isSome) ∧
    ((c.getDraftStatus net documentId).2.status = DocStatus.none ↔
      net.getDoc (stripDraftsOnce documentId) = none ∧
      net.getDoc ("drafts." ++ stripDraftsOnce documentId) = none) ∧
    (c.getDraftStatus net documentId).2.hasUnpublishedChanges =
      (net.getDoc ("drafts." ++ stripDraftsOnce documentId)).isSome := by
  unfold SanityClient.getDraftStatus SanityClient.getDocument
  cases hp : net.getDoc (stripDraftsOnce documentId) <;>
    cases hd : net.getDoc ("drafts." ++ stripDraftsOnce documentId) <;>
      simp [hp, hd]

/-- Concrete document A used by the diff and draft-status witnesses. -/
def witDocA : SanityDocument :=
  [("_id", Json.str "docA"), ("a", Json.num 1), ("b", Json.num 2)]

/-- Concrete document B used by the diff witness. -/
def witDocB : SanityDocument :=
  [("_id", Json.str "docB"), ("b", Json.num 2), ("c", Json.num 3)]

/-- Store used by the diff and draft-status witnesses: two published
documents, no drafts. -/
def witNetDiff : NetOracle :=
  { getDoc := fun id =>
      if id = "docA" then some witDocA
      else if id = "docB" then some witDocB
      else none
    mutateResp := fun _ _ => .ok { transactionId := "tx", results := [] }
    historyResp := fun _ => .error (503, "unavailable")
    uploadResp := fun _ _ => .error (500, "err")
    now := "2026-10-11T00:00:00.000Z" }

/-- Witness for C5 on a published-only document. -/
theorem getDraftStatus_classifies_witness :
    (witTokClient.getDraftStatus witNetDiff "docA").2.status = DocStatus.published ∧
    (witTokClient.getDraftStatus witNetDiff "docA").2.hasUnpublishedChanges = false :=
  have h := getDraftStatus_classifies witTokClient witNetDiff "docA"
  ⟨(h.2.2.2.2.1).mpr ⟨rfl, rfl⟩, (h.2.2.2.2.2.2.2).trans rfl⟩

/-- C6: when both lookups succeed, `compareDocuments` classifies every
non-underscore field name of the two documents: only-in-B fields are added,
only-in-A removed, shared fields changed or unchanged according to whether
their JSON serializations differ; a failed lookup yields `NotFoundError`
naming the missing id. -/
theorem compareDocuments_partitions (c : SanityClient) (net : NetOracle)
    (idA idB : String) :
    (∀ docA docB, net.getDoc idA = some docA → net.getDoc idB = some docB →
      (c.compareDocuments net idA idB).2 =
        .ok (okOr emptyDiff (c.compareDocuments net idA idB).2) ∧
      (∀ k, k ∈ (okOr emptyDiff (c.compareDocuments net idA idB).2).added ↔
        k ∈ appKeys docB ∧ k ∉ appKeys docA) ∧
      (∀ k, k ∈ (okOr emptyDiff (c.compareDocuments net idA idB).2).removed ↔
        k ∈ appKeys docA ∧ k ∉ appKeys docB) ∧
      (∀ k, k ∈ (okOr emptyDiff (c.compareDocuments net idA idB).2).changed ↔
        k ∈ appKeys docA ∧ k ∈ appKeys docB ∧
          stringifyAt docA k ≠ stringifyAt docB k) ∧
      (∀ k, k ∈ (okOr emptyDiff (c.compareDocuments net idA idB).2).unchanged ↔
        k ∈ appKeys docA ∧ k ∈ appKeys docB ∧
          stringifyAt docA k = stringifyAt docB k)) ∧
    (net.getDoc idA = none →
      (c.compareDocuments net idA idB).2 =
        .error (.notFound ("Document not found: " ++ idA))) ∧
    (∀ docA, net.getDoc idA = some docA → net.getDoc idB = none →
      (c.compareDocuments net idA idB).2 =
        .error (.notFound ("Document not found: " ++ idB))) := by
  refine ⟨?_, ?_, ?_⟩
  · intro docA docB hA hB
    have hres : (c.compareDocuments net idA idB).2 = .ok
        { added := (appKeys docB).filter (fun k => ! (appKeys docA).contains k),
          removed := (appKeys docA).filter (fun k => ! (appKeys docB).contains k),
          changed := (appKeys docA).filter (fun k =>
            (appKeys docB).contains k && stringifyAt docA k != stringifyAt docB k),
          unchanged := (appKeys docA).filter (fun k =>
            (appKeys docB).contains k && stringifyAt docA k == stringifyAt docB k) } := by
      unfold SanityClient.compareDocuments SanityClient.getDocument
      simp [hA, hB]
    have hD : okOr emptyDiff (c.compareDocuments net idA idB).2 =
        { added := (appKeys docB).filter (fun k => ! (appKeys docA).contains k),
          removed := (appKeys docA).filter (fun k => ! (appKeys docB).contains k),
          changed := (appKeys docA).filter (fun k =>
            (appKeys docB).contains k && stringifyAt docA k != stringifyAt docB k),
          unchanged := (appKeys docA).filter (fun k =>
            (appKeys docB).contains k && stringifyAt docA k == stringifyAt docB k) } := by
      rw [hres]
      rfl
    refine ⟨by rw [hres]; rfl, ?_, ?_, ?_, ?_⟩
    · intro k
      rw [hD]
      simp [List.mem_filter]
    · intro k
      rw [hD]
      simp [List.mem_filter]
    · intro k
      rw [hD]
      simp [List.mem_filter, and_assoc]
    · intro k
      rw [hD]
      simp [List.mem_filter, and_assoc]
  · intro hA
    unfold SanityClient.compareDocuments SanityClient.getDocument
    simp [hA]
  · intro docA hA hB
    unfold SanityClient.compareDocuments SanityClient.getDocument
    simp [hA, hB]

/-- Witness for C6 at the concrete documents: `c` is added, `a` removed,
`b` unchanged. -/
theorem compareDocuments_partitions_witness :
    "c" ∈ (okOr emptyDiff
      (witTokClient.compareDocuments witNetDiff "docA" "docB").2).added ∧
    "a" ∈ (okOr emptyDiff
      (witTokClient.compareDocuments witNetDiff "docA" "docB").2).removed ∧
    "b" ∈ (okOr emptyDiff
      (witTokClient.compareDocuments witNetDiff "docA" "docB").2).unchanged :=
  have h := (compareDocuments_partitions witTokClient witNetDiff "docA" "docB").1
    witDocA witDocB rfl rfl
  ⟨(h.2.1 "c").mpr (by decide), (h.2.2.1 "a").mpr (by decide),
   (h.2.2.2.2 "b").mpr (by decide)⟩

/-- C7: when the history endpoint answers with a non-success status (on a
client with a credential), `getHistory` does not surface the failure: it
returns a single entry synthesized from the current document when it exists
(its id, its revision marker with `"unknown"` as fallback, its update
timestamp with the current time as fallback), and the empty list when the
document does not exist. -/
theorem getHistory_fallback_degrades (c : SanityClient) (net : NetOracle)
    (documentId : String) (options : Option HistoryOptions) (status : Nat)
    (body : String) (htok : strTruthy c.token = true)
    (hfail : net.historyResp
        (c.historyUrl documentId (jsOrInt (options.bind (fun o => o.limit)) 25)) =
      Except.error (status, body)) :
    (∀ doc, net.getDoc documentId = some doc →
      (c.getHistory net documentId options).2 =
        .ok [{ _id := getField doc "_id",
               _rev := jsOr (getField doc "_rev") (Json.str "unknown"),
               _updatedAt := jsOr (getField doc "_updatedAt") (Json.str net.now) }]) ∧
    (net.getDoc documentId = none →
      (c.getHistory net documentId options).2 = .ok []) := by
  constructor
  · intro doc hdoc
    unfold SanityClient.getHistory SanityClient.getDocument
    simp [htok, hfail, hdoc]
  · intro hnone
    unfold SanityClient.getHistory SanityClient.getDocument
    simp [htok, hfail, hnone]

/-- Witness for C7: the unavailable history endpoint degrades to a synthesized
single entry for the existing draft document. -/
theorem getHistory_fallback_degrades_witness :
    (witTokClient.getHistory witNet "drafts.x" none).2 =
      .ok [{ _id := getField witDraftDoc "_id",
             _rev := jsOr (getField witDraftDoc "_rev") (Json.str "unknown"),
             _updatedAt := jsOr (getField witDraftDoc "_updatedAt")
               (Json.str witNet.now) }] :=
  (getHistory_fallback_degrades witTokClient witNet "drafts.x" none 503 "unavailable"
    rfl rfl).1 witDraftDoc rfl

/-- C8 counterexample: at limit 10 and offset 20 the built query is not the
claim's template instantiation — the source separates the order clause from
the range selector with a space. -/
theorem getDocumentsByType_template_counterexample :
    getDocumentsByTypeQuery
        (some { limit := some 10, offset := some 20, order := none }) ≠
      "*[_type == $type] | order(_createdAt desc)[20...30]" := by
  decide

/-- C8 (amended): `getDocumentsByType` builds the query
`*[_type == $type] | order(<order>) [<offset>...<offset+limit>]` — with a
space between the order clause and the range selector — using the supplied
limit, offset and order, and the defaults limit 100, offset 0 and
`_createdAt desc` when not supplied; limit 10 with offset 20 yields the
range selector `[20...30]`. -/
theorem getDocumentsByType_range_and_defaults (limit offset : Int) (order : String)
    (hl : limit ≠ 0) (ho : order ≠ "") :
    getDocumentsByTypeQuery
        (some { limit := some limit, offset := some offset, order := some order }) =
      "*[_type == $type] | order(" ++ order ++ ") [" ++ toString offset ++ "..." ++
        toString (offset + limit) ++ "]" ∧
    getDocumentsByTypeQuery none =
      "*[_type == $type] | order(_createdAt desc) [0...100]" ∧
    getDocumentsByTypeQuery
        (some { limit := some 10, offset := some 20, order := none }) =
      "*[_type == $type] | order(_createdAt desc) [20...30]" := by
  refine ⟨?_, by rfl, by rfl⟩
  rcases eq_or_ne offset 0 with h0 | h0 <;>
    simp [getDocumentsByTypeQuery, jsOrInt, jsOrStr, hl, ho, h0]

/-- Witness for the amended C8 at concrete options. -/
theorem getDocumentsByType_range_and_defaults_witness :
    getDocumentsByTypeQuery
        (some { limit := some 10, offset := some 20, order := some "title asc" }) =
      "*[_type == $type] | order(" ++ "title asc" ++ ") [" ++ toString (20 : Int) ++
        "..." ++ toString ((20 : Int) + 10) ++ "]" ∧
    getDocumentsByTypeQuery none =
      "*[_type == $type] | order(_createdAt desc) [0...100]" ∧
    getDocumentsByTypeQuery
        (some { limit := some 10, offset := some 20, order := none }) =
      "*[_type == $type] | order(_createdAt desc) [20...30]" :=
  getDocumentsByType_range_and_defaults 10 20 "title asc" (by decide) (by decide)

/-- C10: `getDocumentsByType` tests its options for falsiness rather than
absence, so an explicit limit 0 (likewise offset 0 and an empty order clause)
falls back to the defaults; `limit 0, offset 20` therefore yields the range
selector `[20...120]`, not `[20...20]`. -/
theorem getDocumentsByType_falsy_zero_defaults :
    (∀ (offset : Option Int) (order : Option String),
      getDocumentsByTypeQuery
          (some { limit := some 0, offset := offset, order := order }) =
        getDocumentsByTypeQuery
          (some { limit := none, offset := offset, order := order })) ∧
    (∀ (limit : Option Int) (order : Option String),
      getDocumentsByTypeQuery
          (some { limit := limit, offset := some 0, order := order }) =
        getDocumentsByTypeQuery
          (some { limit := limit, offset := none, order := order })) ∧
    (∀ (limit offset : Option Int),
      getDocumentsByTypeQuery
          (some { limit := limit, offset := offset, order := some "" }) =
        getDocumentsByTypeQuery
          (some { limit := limit, offset := offset, order := none })) ∧
    getDocumentsByTypeQuery
        (some { limit := some 0, offset := some 20, order := none }) =
      "*[_type == $type] | order(_createdAt desc) [20...120]" ∧
    getDocumentsByTypeQuery
        (some { limit := some 0, offset := some 20, order := none }) ≠
      "*[_type == $type] | order(_createdAt desc) [20...20]" := by
  refine ⟨?_, ?_, ?_, by rfl, by decide⟩ <;>
    · intro a b
      simp [getDocumentsByTypeQuery, jsOrInt, jsOrStr]

/-- Witness for C10: the falsy limit 0 with offset 20 produces the
`[20...120]` selector. -/
theorem getDocumentsByType_falsy_zero_defaults_witness :
    getDocumentsByTypeQuery
        (some { limit := some 0, offset := some 20, order := none }) =
      "*[_type == $type] | order(_createdAt desc) [20...120]" :=
  getDocumentsByType_falsy_zero_defaults.2.2.2.1
